import Mathlib

/-!
Shallow embedding of the ovirt-vmconsole session-establishment core:
`src/ovirt_vmconsole/common/utils.py`,
`src/ovirt_vmconsole/ovirt_vmconsole_proxy_shell/__main__.py` and
`src/ovirt_vmconsole/ovirt_vmconsole_host_shell/__main__.py`.

Pure control flow is translated into total Lean functions; the
line-oriented interactive input channel is modelled as a list of the
strings `sys.stdin.readline` returns (an exhausted list, or an empty
string, is end-of-file, exactly as `readline` signals it); raised Python
exceptions become an `Except` error value carrying the exception class
and message.
-/

namespace OvirtVmconsole

/-- Exception classes raised by the embedded code paths.  `UserExit` and
`UserVisibleRuntimeError` are the classes defined in `common/utils.py`
(both subclasses of `RuntimeError`, but sibling classes of each other);
`runtimeError` is a plain `RuntimeError`; `jsonDecodeError` is the
`json.JSONDecodeError` (a `ValueError`) raised by `json.loads`. -/
inductive PyExc
  | userExit
  | keyboardInterrupt
  | userVisibleRuntimeError (msg : String)
  | runtimeError (msg : String)
  | jsonDecodeError
  deriving DecidableEq, Repr

/-- One console entry of a discovery response: the dict
`{vmid, vm, host, console}` delivered by the external discovery command. -/
structure ConsoleEntry where
  vmid : String
  vm : String
  host : String
  console : String
  deriving DecidableEq, Repr

/-- Translation of `l.rstrip('\r\n')`: drop every trailing carriage
return or newline character. -/
def rstripCRLF (s : String) : String :=
  ⟨(s.data.reverse.dropWhile (fun c => c == '\r' || c == '\n')).reverse⟩

/-- Value of a non-empty all-digit character run, `none` otherwise. -/
def digitsVal (l : List Char) : Option Nat :=
  if l.isEmpty then none
  else if l.all Char.isDigit then
    some (l.foldl (fun acc c => acc * 10 + (c.toNat - 48)) 0)
  else none

/-- Strip leading and trailing whitespace characters. -/
def stripWs (l : List Char) : List Char :=
  ((l.dropWhile Char.isWhitespace).reverse.dropWhile Char.isWhitespace).reverse

/-- Translation of Python `int(s)` on a line of user input: surrounding
whitespace is stripped, then an optional sign followed by a non-empty
run of ASCII digits parses to the integer; anything else raises
`ValueError` (here: `none`).  Digit-grouping underscores and non-ASCII
digits, which CPython also accepts, are not modelled. -/
def pyInt (s : String) : Option Int :=
  match stripWs s.data with
  | '+' :: rest => (digitsVal rest).map (fun n => (n : Int))
  | '-' :: rest => (digitsVal rest).map (fun n => -(n : Int))
  | rest => (digitsVal rest).map (fun n => (n : Int))

/-- Translation of the `'{index:02}'` format item: zero-pad to width 2. -/
def pad2 (n : Nat) : String :=
  if n < 10 then "0" ++ toString n else toString n

/-- The numbered menu lines `'{index:02} {vm}[{vmid}]\n'` built by
`selectConsole` in `common/utils.py`. -/
def menuEntries (consoles : List ConsoleEntry) : String :=
  String.join ((consoles.enum).map
    (fun p => pad2 p.1 ++ " " ++ p.2.vm ++ "[" ++ p.2.vmid ++ "]\n"))

/-- The fixed instruction text and prompt appended after the menu lines. -/
def menuFooter : String :=
  "\nPlease, enter the id of the Serial Console you want to connect to.\nTo disconnect from a Serial Console, enter the sequence: <Enter><~><.>\nSELECT> "

/-- The full menu string written to stdout on every loop iteration. -/
def buildMenu (title : String) (consoles : List ConsoleEntry) : String :=
  title ++ menuEntries consoles ++ menuFooter

/-- Observable output of the selection loop: the menu prompt written to
stdout, or the `Invalid selection` message written to stderr. -/
inductive OutEvent
  | prompt (menu : String)
  | invalidSelection
  deriving DecidableEq, Repr

/-- Translation of the `while not entry` loop of `selectConsole`
(`common/utils.py`): write the menu, read a line (`[]` or an empty
string is EOF), strip trailing CR/LF, treat `exit` as `UserExit`, parse
an integer and select when it is in range, otherwise report
`Invalid selection` and loop.  The source guards with
`i < 0 or i >= len(consoles)`; the dite condition here is its
negation. -/
def selectConsoleLoop (menu : String) (consoles : List ConsoleEntry) :
    List String → Except PyExc ConsoleEntry × List OutEvent
  | [] => (.error (.userVisibleRuntimeError "EOF"), [.prompt menu])
  | l :: rest =>
    if l = "" then (.error (.userVisibleRuntimeError "EOF"), [.prompt menu])
    else
      let t := rstripCRLF l
      if t = "exit" then (.error .userExit, [.prompt menu])
      else
        match pyInt t with
        | some i =>
          if h : 0 ≤ i ∧ i.toNat < consoles.length then
            (.ok (consoles.get ⟨i.toNat, h.2⟩), [.prompt menu])
          else
            let r := selectConsoleLoop menu consoles rest
            (r.1, .prompt menu :: .invalidSelection :: r.2)
        | none =>
          let r := selectConsoleLoop menu consoles rest
          (r.1, .prompt menu :: .invalidSelection :: r.2)

/-- `selectConsole(menu, consoles)` of `common/utils.py`: extend the
caller-supplied title with the numbered entries and the instruction
footer, then run the prompt loop over the input channel. -/
def selectConsole (title : String) (consoles : List ConsoleEntry)
    (inputs : List String) : Except PyExc ConsoleEntry × List OutEvent :=
  selectConsoleLoop (buildMenu title consoles) consoles inputs

/-- Translation of the `for ... break / else raise` search pattern used
in `Main.doConnect` of the proxy shell: first entry satisfying the
predicate, if any. -/
def forFindFirst (p : ConsoleEntry → Bool) : List ConsoleEntry → Option ConsoleEntry
  | [] => none
  | e :: rest => if p e then some e else forFindFirst p rest

/-- Console-selection section of `Main.doConnect` in
`ovirt_vmconsole_proxy_shell/__main__.py` (lines 113-148): select by
`--vm-id` when non-empty, else by `--vm-name` when non-empty, else fail
on an empty list, auto-select a singleton list, and otherwise run the
interactive menu (whose title falls back to the built-in one when the
configured `console_menu_title` is falsy).  Python truthiness of the
optional argument strings is modelled by comparison with `""`. -/
def doConnectSelect (vmId vmName menuTitle : String)
    (consoles : List ConsoleEntry) (inputs : List String) :
    Except PyExc ConsoleEntry × List OutEvent :=
  if vmId ≠ "" then
    match forFindFirst (fun e => e.vmid == vmId) consoles with
    | some e => (.ok e, [])
    | none =>
      (.error (.userVisibleRuntimeError
        ("VM with id '" ++ vmId ++ "' is unavailable")), [])
  else if vmName ≠ "" then
    match forFindFirst (fun e => e.vm == vmName) consoles with
    | some e => (.ok e, [])
    | none =>
      (.error (.userVisibleRuntimeError
        ("VM with name '" ++ vmName ++ "' is unavailable")), [])
  else if consoles.length = 0 then
    (.error (.userVisibleRuntimeError "No available running VMs"), [])
  else if h : consoles.length = 1 then
    (.ok (consoles.get ⟨0, by omega⟩), [])
  else
    let title := if menuTitle = "" then "Available Serial Consoles:\n" else menuTitle
    selectConsole title consoles inputs

/-- Exit status and stderr text of one `Main.main` invocation. -/
structure MainResult where
  ret : Nat
  stderrText : Option String
  deriving DecidableEq, Repr

/-- Translation of the `try/except` ladder of `Main.main` in the proxy
shell (lines 347-407): `ret` starts at 1 and becomes 0 only when the
body completes; `UserExit` and `KeyboardInterrupt` are passed silently
(leaving `ret = 1`); `UserVisibleRuntimeError` prints its message; any
other `Exception` prints the generic internal-error line. -/
def proxyMainResult : Except PyExc Unit → MainResult
  | .ok _ => ⟨0, none⟩
  | .error .userExit => ⟨1, none⟩
  | .error .keyboardInterrupt => ⟨1, none⟩
  | .error (.userVisibleRuntimeError m) => ⟨1, some ("ERROR: " ++ m ++ "\n")⟩
  | .error (.runtimeError _) => ⟨1, some "ERROR: Internal error\n"⟩
  | .error .jsonDecodeError => ⟨1, some "ERROR: Internal error\n"⟩

/-- Translation of the `try/except` ladder of `Main.main` in the host
shell (lines 196-243): there is no `UserExit`/`KeyboardInterrupt`
handler, so a `KeyboardInterrupt` (not a subclass of `Exception`)
escapes `main` and the interpreter exits with status 1 after printing a
traceback; `UserExit`, being a `RuntimeError`, falls into the generic
`except Exception` branch. -/
def hostMainResult : Except PyExc Unit → MainResult
  | .ok _ => ⟨0, none⟩
  | .error (.userVisibleRuntimeError m) => ⟨1, some ("ERROR: " ++ m ++ "\n")⟩
  | .error .keyboardInterrupt => ⟨1, some "Traceback (most recent call last):\n"⟩
  | .error .userExit => ⟨1, some "ERROR: Internal error\n"⟩
  | .error (.runtimeError _) => ⟨1, some "ERROR: Internal error\n"⟩
  | .error .jsonDecodeError => ⟨1, some "ERROR: Internal error\n"⟩

/-- Translation of `os.path.basename` (posix): the suffix after the
last `/`. -/
def basename (s : String) : String :=
  ⟨(s.data.reverse.takeWhile (fun c => c != '/')).reverse⟩

/-- First character of a string is `/`. -/
def headIsSlash (s : String) : Bool :=
  match s.data with
  | '/' :: _ => true
  | _ => false

/-- Last character of a string is `/`. -/
def lastIsSlash (s : String) : Bool :=
  match s.data.reverse with
  | '/' :: _ => true
  | _ => false

/-- Translation of `os.path.join(a, b)` (posix, two components): an
absolute second component replaces the first; otherwise the two are
joined, inserting a separator unless the first is empty or already ends
with one. -/
def posixJoin (a b : String) : String :=
  if headIsSlash b then b
  else if a.data.isEmpty || lastIsSlash a then a ++ b
  else a ++ "/" ++ b

/-- Console-name validation and socket-path resolution of
`Main.doConnect` in `ovirt_vmconsole_host_shell/__main__.py`
(lines 98-106): a name whose basename differs from itself is rejected
with `Invalid console name` before any socket path is formed; otherwise
the name is joined to the configured console directory. -/
def hostDoConnectCheck (console consoledir : String) : Except PyExc String :=
  if basename console ≠ console then
    .error (.userVisibleRuntimeError "Invalid console name")
  else
    .ok (posixJoin consoledir console)

/-- Python value as produced by `json.loads`.  Numbers are restricted to
integers (the discovery schema carries only strings, lists and objects;
fractional or exponent literals are treated as a parse failure by this
model). -/
inductive PyVal
  | null
  | bool (b : Bool)
  | int (n : Int)
  | str (s : String)
  | arr (xs : List PyVal)
  | obj (kvs : List (String × PyVal))

/-- Python truthiness (`bool(v)`) of a decoded JSON value: `None`,
`False`, `0`, `""`, `[]` and `{}` are falsy, everything else truthy. -/
def pyTruthy : PyVal → Bool
  | .null => false
  | .bool b => b
  | .int n => n != 0
  | .str s => !s.isEmpty
  | .arr xs => !xs.isEmpty
  | .obj kvs => !kvs.isEmpty

/-- JSON insignificant whitespace. -/
def jskipWs (l : List Char) : List Char :=
  l.dropWhile (fun c => c == ' ' || c == '\t' || c == '\n' || c == '\r')

/-- Body of a JSON string after its opening quote: collected characters
and the remainder after the closing quote.  Single-character escapes are
mapped; `\uXXXX` escapes are not modelled. -/
def jstringAux : List Char → List Char → Option (List Char × List Char)
  | _, [] => none
  | acc, '"' :: rest => some (acc.reverse, rest)
  | acc, '\\' :: c :: rest =>
    let e : Char :=
      if c == 'n' then '\n'
      else if c == 't' then '\t'
      else if c == 'r' then '\r'
      else if c == 'b' then Char.ofNat 8
      else if c == 'f' then Char.ofNat 12
      else c
    jstringAux (e :: acc) rest
  | acc, c :: rest => jstringAux (c :: acc) rest

/-- Integer value of a digit run. -/
def jdigitsVal (ds : List Char) : Int :=
  (ds.foldl (fun acc c => acc * 10 + (c.toNat - 48)) 0 : Nat)

/-- JSON integer literal starting at `l` (sign already consumed). -/
def jnumberTail (l : List Char) : Option (PyVal × List Char) :=
  let ds := l.takeWhile Char.isDigit
  let rest := l.dropWhile Char.isDigit
  if ds.isEmpty then none
  else
    match rest with
    | [] => some (.int (jdigitsVal ds), [])
    | c :: _ =>
      if c == '.' || c == 'e' || c == 'E' then none
      else some (.int (jdigitsVal ds), rest)

mutual

/-- Recursive-descent JSON value parser (fuel-indexed), the model of
what `json.loads` accepts; returns the value and the unconsumed
remainder. -/
def jparseVal : Nat → List Char → Option (PyVal × List Char)
  | 0, _ => none
  | fuel + 1, l =>
    match jskipWs l with
    | 'n' :: 'u' :: 'l' :: 'l' :: rest => some (.null, rest)
    | 't' :: 'r' :: 'u' :: 'e' :: rest => some (.bool true, rest)
    | 'f' :: 'a' :: 'l' :: 's' :: 'e' :: rest => some (.bool false, rest)
    | '"' :: rest => (jstringAux [] rest).map (fun p => (.str ⟨p.1⟩, p.2))
    | '[' :: rest =>
      match jskipWs rest with
      | ']' :: rest2 => some (.arr [], rest2)
      | rest2 => (jparseElems fuel rest2).map (fun p => (.arr p.1, p.2))
    | '{' :: rest =>
      match jskipWs rest with
      | '}' :: rest2 => some (.obj [], rest2)
      | rest2 => (jparseMembers fuel rest2).map (fun p => (.obj p.1, p.2))
    | '-' :: rest =>
      (jnumberTail rest).map
        (fun p => (match p.1 with | .int n => (.int (-n), p.2) | v => (v, p.2)))
    | rest => jnumberTail rest

/-- Non-empty JSON array tail: elements separated by commas up to the
closing bracket. -/
def jparseElems : Nat → List Char → Option (List PyVal × List Char)
  | 0, _ => none
  | fuel + 1, l =>
    match jparseVal fuel l with
    | none => none
    | some (v, rest) =>
      match jskipWs rest with
      | ',' :: rest2 => (jparseElems fuel rest2).map (fun p => (v :: p.1, p.2))
      | ']' :: rest2 => some ([v], rest2)
      | _ => none

/-- Non-empty JSON object tail: `"key": value` members separated by
commas up to the closing brace. -/
def jparseMembers : Nat → List Char → Option (List (String × PyVal) × List Char)
  | 0, _ => none
  | fuel + 1, l =>
    match jskipWs l with
    | '"' :: rest =>
      match jstringAux [] rest with
      | none => none
      | some (k, rest2) =>
        match jskipWs rest2 with
        | ':' :: rest3 =>
          match jparseVal fuel rest3 with
          | none => none
          | some (v, rest4) =>
            match jskipWs rest4 with
            | ',' :: rest5 =>
              (jparseMembers fuel rest5).map (fun p => ((⟨k⟩, v) :: p.1, p.2))
            | '}' :: rest5 => some ([(⟨k⟩, v)], rest5)
            | _ => none
        | _ => none
    | _ => none

end

/-- Model of `json.loads`: parse one JSON document and require only
whitespace after it; any other input raises `json.JSONDecodeError`
(here: `none`).  In particular `jsonLoads ""` is `none`, as
`json.loads('')` raises. -/
def jsonLoads (s : String) : Option PyVal :=
  match jparseVal (s.length + 1) s.data with
  | some (v, rest) => if (jskipWs rest).isEmpty then some v else none
  | none => none

/-- Translation of `ProcessUtils.executeJson` (`common/utils.py`,
lines 192-229) as a function of the external command's exit code and
decoded standard output: a non-zero exit code raises
`RuntimeError('{what} execution failed rc={rc}')`; otherwise the output
is fed to `json.loads` (whose failure, e.g. on empty output, raises
`json.JSONDecodeError`); a successfully parsed but falsy value raises
`RuntimeError('{what} malformed output')`; a truthy value is
returned. -/
def executeJson (what : String) (returncode : Int) (stdoutText : String) :
    Except PyExc PyVal :=
  if returncode ≠ 0 then
    .error (.runtimeError (what ++ " execution failed rc=" ++ toString returncode))
  else
    match jsonLoads stdoutText with
    | none => .error .jsonDecodeError
    | some ret =>
      if pyTruthy ret then .ok ret
      else .error (.runtimeError (what ++ " malformed output"))

/-- Translation of `.rstrip('\n')`: drop every trailing newline. -/
def rstripNl (s : String) : String :=
  ⟨(s.data.reverse.dropWhile (fun c => c == '\n')).reverse⟩

/-- The known-hosts line written by `Main.doConnect` of the proxy shell
(lines 154-166): `'@cert-authority {host},{alias} {key}'` where `key` is
the `ca.pub` file content with trailing newlines stripped.  The write
target is a fresh `tempfile.mkstemp` file (private, mode 0600); only the
content is modelled here. -/
def knownHostsContent (host hostAlias cakeyRaw : String) : String :=
  "@cert-authority " ++ host ++ "," ++ hostAlias ++ " " ++ rstripNl cakeyRaw

/-- Number of lines of a string under the convention that a string with
no newline character is one line. -/
def lineCount (s : String) : Nat :=
  s.data.count '\n' + 1

/-- Split a character list at the first occurrence of `c`, dropping the
separator; `none` when `c` does not occur. -/
def splitFirst (c : Char) (l : List Char) : Option (List Char × List Char) :=
  match l.dropWhile (fun x => x != c) with
  | [] => none
  | _ :: rest => some (l.takeWhile (fun x => x != c), rest)

/-- Reader for a known-hosts `@cert-authority` line, used to state that
the materialized anchor line determines its three fields: the marker,
then `host,alias` up to the first space, the host up to the first
comma, and the key after the space. -/
def parseKnownHostsLine (s : String) : Option (String × String × String) :=
  if s.data.take 16 = "@cert-authority ".data then
    match splitFirst ' ' (s.data.drop 16) with
    | none => none
    | some (hostspec, key) =>
      match splitFirst ',' hostspec with
      | none => none
      | some (h, a) => some (⟨h⟩, ⟨a⟩, ⟨key⟩)
  else none

/-- Outcome of the deferred-cleanup function executed in the detached
grandchild process of `ProcessUtils.simpleDaemon`: it either completes
or raises (the raised traceback is printed to the discarded standard
error, per lines 179-183 of `common/utils.py`). -/
inductive TaskOutcome
  | completed
  | raised
  deriving DecidableEq, Repr

/-- Exit status of the grandchild that ran `main`: the `finally:
os._exit(1)` of `simpleDaemon` makes it 1 whatever `main` did; nobody
waits for it. -/
def grandchildExitStatus (_o : TaskOutcome) : Nat := 1

/-- Exit status of the intermediate child: it calls `os._exit(0)` right
after the second `fork`, before the task body runs. -/
def intermediateExitStatus : Nat := 0

/-- The parent side of `simpleDaemon` (lines 187-190): `waitpid` on the
first child only, then `RuntimeError('Daemon not exited properly')`
unless that child exited with status 0. -/
def simpleDaemonParent (waitedStatus : Nat) : Except PyExc Unit :=
  if waitedStatus = 0 then .ok ()
  else .error (.runtimeError "Daemon not exited properly")

/-- Result `simpleDaemon` delivers to its caller: the parent waits only
for the intermediate child, whose status is fixed at 0 before the
detached task runs, so the task's outcome never reaches the caller. -/
def simpleDaemonResult (_taskOutcome : TaskOutcome) : Except PyExc Unit :=
  simpleDaemonParent intermediateExitStatus

/-- Action performed by the detached cleanup task. -/
inductive DaemonAct
  | sleep (secs : Nat)
  | unlink (path : String)
  deriving DecidableEq, Repr

/-- Translation of `delayedUnlink` (proxy shell, lines 170-172) as the
trace of actions the detached task performs: `time.sleep(timeout)` then
`os.unlink(name)`. -/
def delayedUnlink (timeout : Nat) (name : String) : List DaemonAct :=
  [.sleep timeout, .unlink name]

/-- Effect of one daemon action on a filesystem (set of existing paths)
paired with a clock. -/
def applyDaemonAct : List String × Nat → DaemonAct → List String × Nat
  | (fs, t), .sleep d => (fs, t + d)
  | (fs, t), .unlink p => (fs.erase p, t)

/-- Run a daemon action trace over a filesystem-and-clock state. -/
def runDaemonActs (st : List String × Nat) (acts : List DaemonAct) :
    List String × Nat :=
  acts.foldl applyDaemonAct st

/-- Filesystem effect of the anchor provisioning (`tempfile.mkstemp`
plus the write): the anchor path now exists. -/
def provisionAnchor (fs : List String) (path : String) : List String :=
  path :: fs

/-- Predicate picking the unlink actions out of a daemon trace. -/
def isUnlinkAct : DaemonAct → Bool
  | .unlink _ => true
  | .sleep _ => false

/-- Endpoint tag of the relay bridge. -/
inductive Side
  | A
  | B
  deriving DecidableEq, Repr

/-- Modelled from the spec: the live state of one `socketproxy.Proxy`
relay session (RelayBridge, spec section 4.4); `socketproxy.py` itself is
not under `src/`.  `aPending`/`bPending` are the bytes written into an
endpoint and not yet read by the bridge, with `aClosed`/`bClosed` marking
that the writer has finished (a drained, closed endpoint yields the
zero-length read); `toB`/`toA` are the bytes the bridge has delivered to
the opposite endpoint's read side; `outcome` is set once the session
terminated with `ClosedByPeer` of that side. -/
structure RelayState where
  aPending : List Nat
  bPending : List Nat
  aClosed : Bool
  bClosed : Bool
  toB : List Nat
  toA : List Nat
  outcome : Option Side
  deriving DecidableEq, Repr

/-- Modelled from the spec: one iteration of the bridge's event loop.
The schedule item names the endpoint the readiness wait reported and an
arbitrary read size, clamped to `[1, bufsize]` and to what is pending
(reads return at most `bufferSize` bytes); a zero-length read from a
drained closed endpoint ends the session with `ClosedByPeer`; a
non-empty read is written in full to the opposite endpoint before the
next wait. -/
def relayStep (bufsize : Nat) (s : RelayState) (sched : Side × Nat) : RelayState :=
  if s.outcome.isSome then s
  else
    match sched.1 with
    | .A =>
      if s.aPending.isEmpty then
        if s.aClosed then { s with outcome := some .A } else s
      else
        let n := min (min (max sched.2 1) bufsize) s.aPending.length
        { s with aPending := s.aPending.drop n, toB := s.toB ++ s.aPending.take n }
    | .B =>
      if s.bPending.isEmpty then
        if s.bClosed then { s with outcome := some .B } else s
      else
        let n := min (min (max sched.2 1) bufsize) s.bPending.length
        { s with bPending := s.bPending.drop n, toA := s.toA ++ s.bPending.take n }

/-- Modelled from the spec: the bridge's event loop as a fold of
iterations over an arbitrary readiness schedule. -/
def relayRun (bufsize : Nat) (s : RelayState) (scheds : List (Side × Nat)) :
    RelayState :=
  scheds.foldl (relayStep bufsize) s

/-- Modelled from the spec: session start, with the full byte streams
the two writers will have produced (chunk boundaries do not survive a
stream socket, so the pending data is their concatenation) and both
writers eventually closing. -/
def relayInit (bytesA bytesB : List Nat) : RelayState :=
  ⟨bytesA, bytesB, true, true, [], [], none⟩

/-- Sample console entries used by concrete witnesses. -/
def c0 : ConsoleEntry := ⟨"vmid0", "vm0", "host0", "console0"⟩

/-- Second sample console entry used by concrete witnesses. -/
def c1 : ConsoleEntry := ⟨"vmid1", "vm1", "host1", "console1"⟩

theorem takeWhile_append_all {p : Char → Bool} {l1 : List Char} (l2 : List Char)
    (h : ∀ x ∈ l1, p x = true) :
    (l1 ++ l2).takeWhile p = l1 ++ l2.takeWhile p := by
  induction l1 with
  | nil => simp
  | cons a t ih =>
    have ha := h a (List.mem_cons_self a t)
    simp [List.takeWhile_cons, ha, ih (fun x hx => h x (List.mem_cons_of_mem a hx))]

theorem dropWhile_append_all {p : Char → Bool} {l1 : List Char} (l2 : List Char)
    (h : ∀ x ∈ l1, p x = true) :
    (l1 ++ l2).dropWhile p = l2.dropWhile p := by
  induction l1 with
  | nil => simp
  | cons a t ih =>
    have ha := h a (List.mem_cons_self a t)
    simp [List.dropWhile_cons, ha, ih (fun x hx => h x (List.mem_cons_of_mem a hx))]

theorem splitFirst_append (sep : Char) (l1 l2 : List Char)
    (h : ∀ x ∈ l1, x ≠ sep) :
    splitFirst sep (l1 ++ sep :: l2) = some (l1, l2) := by
  have hall : ∀ x ∈ l1, (x != sep) = true := by
    intro x hx
    simpa using h x hx
  unfold splitFirst
  rw [dropWhile_append_all _ hall, takeWhile_append_all _ hall]
  simp [List.dropWhile_cons, List.takeWhile_cons]

theorem basename_eq_self_iff (s : String) :
    basename s = s ↔ '/' ∉ s.data := by
  constructor
  · intro h hm
    have hd : (s.data.reverse.takeWhile (fun c => c != '/')).reverse = s.data :=
      congrArg String.data h
    have hself : s.data.reverse.takeWhile (fun c => c != '/') = s.data.reverse := by
      have := congrArg List.reverse hd
      simpa using this
    have hslash : (('/' : Char) != '/') = true :=
      List.takeWhile_eq_self_iff.mp hself '/' (by simpa using hm)
    simp at hslash
  · intro hm
    have hall : ∀ x ∈ s.data.reverse, (x != '/') = true := by
      intro x hx
      have hx2 : x ∈ s.data := by simpa using hx
      have hne : x ≠ '/' := fun he => hm (he ▸ hx2)
      simpa using hne
    unfold basename
    rw [List.takeWhile_eq_self_iff.mpr hall, List.reverse_reverse]

/-- C1: the claim states that `Main.main` of both shells returns exit
status 0 on clean completion including explicit user cancellation.  This
counterexample refutes it on the proxy shell: a session whose body
raises `UserExit` (the `exit` sentinel during selection) is caught by
the silent `except (UserExit, KeyboardInterrupt): pass` handler, but
`ret` was initialized to 1 and never set to 0, so the session exits with
status 1, not 0 (silently: nothing is written to stderr). -/
theorem claim_c1_counterexample :
    (proxyMainResult (.error .userExit)).ret = 1
  ∧ (proxyMainResult (.error .userExit)).ret ≠ 0
  ∧ (proxyMainResult (.error .userExit)).stderrText = none := by
  refine ⟨rfl, ?_, rfl⟩
  decide

/-- C1 (amended): exit status is 0 only when the whole body completes
without raising; every raised outcome, including explicit user
cancellation, exits with status 1.  In the proxy shell, cancellation
(the `exit` sentinel or a keyboard interrupt) is distinguished from
failure only by being silent: no error line is written, while a
user-visible error prints its message and any other failure prints the
generic internal-error line.  The host shell has no cancellation
handler at all, and also returns 1 on every raised outcome. -/
theorem claim_c1_amended :
    (proxyMainResult (.ok ())).ret = 0
  ∧ (∀ e, (proxyMainResult (.error e)).ret = 1)
  ∧ (proxyMainResult (.error .userExit)).stderrText = none
  ∧ (proxyMainResult (.error .keyboardInterrupt)).stderrText = none
  ∧ (∀ m, (proxyMainResult (.error (.userVisibleRuntimeError m))).stderrText
      = some ("ERROR: " ++ m ++ "\n"))
  ∧ (∀ m, (proxyMainResult (.error (.runtimeError m))).stderrText
      = some "ERROR: Internal error\n")
  ∧ (hostMainResult (.ok ())).ret = 0
  ∧ (∀ e, (hostMainResult (.error e)).ret = 1) := by
  refine ⟨rfl, fun e => ?_, rfl, rfl, fun m => rfl, fun m => rfl, rfl, fun e => ?_⟩ <;>
    cases e <;> rfl

/-- C5: the claim states that any console name containing a
path-traversal component is rejected before socket resolution.  This
counterexample refutes it: the name `..` is a path-traversal component,
yet `os.path.basename('..') == '..'`, so the host shell's validation
accepts it and resolves the socket path into the console directory's
parent. -/
theorem claim_c5_counterexample :
    hostDoConnectCheck ".." "/var/run/ovirt-vmconsole-console"
      = .ok "/var/run/ovirt-vmconsole-console/.."
  ∧ hostDoConnectCheck ".." "/var/run/ovirt-vmconsole-console"
      ≠ .error (.userVisibleRuntimeError "Invalid console name") := by
  refine ⟨rfl, ?_⟩
  intro h
  rw [show hostDoConnectCheck ".." "/var/run/ovirt-vmconsole-console"
      = .ok "/var/run/ovirt-vmconsole-console/.." from rfl] at h
  exact Except.noConfusion h

/-- C5 (amended): the host shell's console-name validation is exactly
`os.path.basename(name) == name`, i.e. it rejects precisely the names
containing a path separator, with the user-visible
`Invalid console name` error and no socket path formed; any
separator-free name (including the traversal components `.` and `..`)
passes and is joined to the configured console directory. -/
theorem claim_c5_amended (console consoledir : String) :
    ('/' ∈ console.data →
      hostDoConnectCheck console consoledir
        = .error (.userVisibleRuntimeError "Invalid console name"))
  ∧ ('/' ∉ console.data →
      hostDoConnectCheck console consoledir = .ok (posixJoin consoledir console)) := by
  constructor
  · intro hm
    have hb : basename console ≠ console :=
      fun h => (basename_eq_self_iff console).mp h hm
    unfold hostDoConnectCheck
    rw [if_pos hb]
  · intro hm
    have hb : basename console = console := (basename_eq_self_iff console).mpr hm
    unfold hostDoConnectCheck
    rw [if_neg (by simp [hb])]

/-- C5 witness: the amended statement at concrete inputs: a name with a
separator is rejected, a bare name resolves inside the directory. -/
theorem claim_c5_amended_witness :
    hostDoConnectCheck "a/b" "/d" = .error (.userVisibleRuntimeError "Invalid console name")
  ∧ hostDoConnectCheck "con" "/d" = .ok "/d/con" := by
  constructor
  · exact (claim_c5_amended "a/b" "/d").1 (by decide)
  · have h := (claim_c5_amended "con" "/d").2 (by decide)
    rw [h]
    rfl

/-- C8: immediately after provisioning, the anchor path exists; the
detached task's trace is exactly one sleep of the configured delay
followed by exactly one unlink of the anchor path (deletion scheduled,
and occurring, exactly once); running that trace removes the path at
time `t0 + delay`; and the parent's result from `simpleDaemon` is
independent of the task's outcome and always `ok` — the parent waits
only for the intermediate child, which exits 0 before the task body
runs, so a failing cleanup task is never escalated. -/
theorem claim_c8 (fs : List String) (path : String) (delay t0 : Nat)
    (o : TaskOutcome) :
    path ∈ provisionAnchor fs path
  ∧ delayedUnlink delay path = [.sleep delay, .unlink path]
  ∧ (delayedUnlink delay path).countP isUnlinkAct = 1
  ∧ runDaemonActs (provisionAnchor fs path, t0) (delayedUnlink delay path)
      = (fs, t0 + delay)
  ∧ (∀ o2, simpleDaemonResult o = simpleDaemonResult o2)
  ∧ simpleDaemonResult o = .ok () := by
  refine ⟨List.mem_cons_self path fs, rfl, rfl, ?_, fun o2 => rfl, rfl⟩
  simp [runDaemonActs, delayedUnlink, applyDaemonAct, provisionAnchor,
    List.erase_cons_head]

theorem relayStep_preserves (bufsize : Nat) (s : RelayState) (x : Side × Nat) :
    ((relayStep bufsize s x).toB ++ (relayStep bufsize s x).aPending
        = s.toB ++ s.aPending)
  ∧ ((relayStep bufsize s x).toA ++ (relayStep bufsize s x).bPending
        = s.toA ++ s.bPending) := by
  obtain ⟨sa, sb, ca, cb, tb, ta, oc⟩ := s
  obtain ⟨side, k⟩ := x
  cases side <;>
    (simp only [relayStep]
     split_ifs <;> refine ⟨?_, ?_⟩ <;>
       simp [List.append_assoc, List.take_append_drop])

theorem relayRun_preserves (bufsize : Nat) (scheds : List (Side × Nat))
    (s : RelayState) :
    ((relayRun bufsize s scheds).toB ++ (relayRun bufsize s scheds).aPending
        = s.toB ++ s.aPending)
  ∧ ((relayRun bufsize s scheds).toA ++ (relayRun bufsize s scheds).bPending
        = s.toA ++ s.bPending) := by
  induction scheds generalizing s with
  | nil => exact ⟨rfl, rfl⟩
  | cons x xs ih =>
    have h1 := relayStep_preserves bufsize s x
    have h2 := ih (relayStep bufsize s x)
    exact ⟨h2.1.trans h1.1, h2.2.trans h1.2⟩

/-- C9: byte-exact, order-preserving delivery per direction in the
relay-bridge model: for every chunk sequence written into endpoint A,
every buffer size and every readiness schedule, the bytes delivered to
endpoint B's read side followed by the bytes still pending equal the
concatenated input stream — so delivery is unmodified and in order — and
symmetrically from B to A; once a direction's pending data is drained
(as at `ClosedByPeer` termination), the delivered bytes are exactly the
whole input stream. -/
theorem claim_c9 (bufsize : Nat) (chunksA chunksB : List (List Nat))
    (scheds : List (Side × Nat)) :
    ((relayRun bufsize (relayInit chunksA.flatten chunksB.flatten) scheds).toB
        ++ (relayRun bufsize (relayInit chunksA.flatten chunksB.flatten) scheds).aPending
      = chunksA.flatten)
  ∧ ((relayRun bufsize (relayInit chunksA.flatten chunksB.flatten) scheds).toA
        ++ (relayRun bufsize (relayInit chunksA.flatten chunksB.flatten) scheds).bPending
      = chunksB.flatten)
  ∧ ((relayRun bufsize (relayInit chunksA.flatten chunksB.flatten) scheds).aPending = []
      → (relayRun bufsize (relayInit chunksA.flatten chunksB.flatten) scheds).toB
          = chunksA.flatten)
  ∧ ((relayRun bufsize (relayInit chunksA.flatten chunksB.flatten) scheds).bPending = []
      → (relayRun bufsize (relayInit chunksA.flatten chunksB.flatten) scheds).toA
          = chunksB.flatten) := by
  have h := relayRun_preserves bufsize scheds (relayInit chunksA.flatten chunksB.flatten)
  have h1 : (relayRun bufsize (relayInit chunksA.flatten chunksB.flatten) scheds).toB
      ++ (relayRun bufsize (relayInit chunksA.flatten chunksB.flatten) scheds).aPending
      = chunksA.flatten := by simpa [relayInit] using h.1
  have h2 : (relayRun bufsize (relayInit chunksA.flatten chunksB.flatten) scheds).toA
      ++ (relayRun bufsize (relayInit chunksA.flatten chunksB.flatten) scheds).bPending
      = chunksB.flatten := by simpa [relayInit] using h.2
  refine ⟨h1, h2, ?_, ?_⟩
  · intro he
    rw [he, List.append_nil] at h1
    exact h1
  · intro he
    rw [he, List.append_nil] at h2
    exact h2

/-- C9 witness: a two-chunk stream into A, buffer size 2, drained by two
A-side iterations, arrives at B byte-exact and in order. -/
theorem claim_c9_witness :
    (relayRun 2 (relayInit ([[1, 2], [3]] : List (List Nat)).flatten
        ([] : List (List Nat)).flatten) [(Side.A, 2), (Side.A, 2)]).toB
      = ([[1, 2], [3]] : List (List Nat)).flatten :=
  (claim_c9 2 [[1, 2], [3]] [] [(Side.A, 2), (Side.A, 2)]).2.2.1 rfl

theorem forFindFirst_eq_none {p : ConsoleEntry → Bool} {l : List ConsoleEntry}
    (h : ∀ e ∈ l, p e = false) : forFindFirst p l = none := by
  induction l with
  | nil => rfl
  | cons a t ih =>
    have ha := h a (List.mem_cons_self a t)
    simp [forFindFirst, ha, ih (fun e he => h e (List.mem_cons_of_mem a he))]

theorem forFindFirst_first {p : ConsoleEntry → Bool} {l : List ConsoleEntry} :
    ∀ {i : Nat} (hi : i < l.length), p (l.get ⟨i, hi⟩) = true →
    (∀ j (hj : j < i), p (l.get ⟨j, Nat.lt_trans hj hi⟩) = false) →
    forFindFirst p l = some (l.get ⟨i, hi⟩) := by
  induction l with
  | nil =>
    intro i hi
    exact absurd hi (Nat.not_lt_zero i)
  | cons a t ih =>
    intro i hi hp hprev
    cases i with
    | zero =>
      have hpa : p a = true := hp
      simp [forFindFirst, hpa]
    | succ k =>
      have ha : p a = false := hprev 0 (Nat.succ_pos k)
      have hk : k < t.length := Nat.lt_of_succ_lt_succ hi
      have hp2 : p (t.get ⟨k, hk⟩) = true := hp
      have hprev2 : ∀ j (hj : j < k), p (t.get ⟨j, Nat.lt_trans hj hk⟩) = false :=
        fun j hj => hprev (j + 1) (Nat.succ_lt_succ hj)
      simp [forFindFirst, ha]
      exact ih hk hp2 hprev2

/-- C2: selection by id and name in `Main.doConnect` of the proxy shell.
When `vmId` is non-empty it takes precedence (the result does not depend
on `vmName` or on the interactive input at all); the first entry whose
`vmid` equals it is returned, and when no entry matches, the session
fails with the user-visible unavailable error.  When `vmId` is empty and
`vmName` is non-empty, the same holds for the first entry whose `vm`
name equals it. -/
theorem claim_c2 (vmId vmName menuTitle : String) (consoles : List ConsoleEntry)
    (inputs : List String) :
    (vmId ≠ "" →
      (∀ vmName2 inputs2,
        (doConnectSelect vmId vmName menuTitle consoles inputs).1
          = (doConnectSelect vmId vmName2 menuTitle consoles inputs2).1)
      ∧ ((∀ e ∈ consoles, e.vmid ≠ vmId) →
        (doConnectSelect vmId vmName menuTitle consoles inputs).1
          = .error (.userVisibleRuntimeError
              ("VM with id '" ++ vmId ++ "' is unavailable")))
      ∧ (∀ i (hi : i < consoles.length), (consoles.get ⟨i, hi⟩).vmid = vmId →
          (∀ j (hj : j < i), (consoles.get ⟨j, Nat.lt_trans hj hi⟩).vmid ≠ vmId) →
          (doConnectSelect vmId vmName menuTitle consoles inputs).1
            = .ok (consoles.get ⟨i, hi⟩)))
  ∧ (vmId = "" → vmName ≠ "" →
      ((∀ e ∈ consoles, e.vm ≠ vmName) →
        (doConnectSelect vmId vmName menuTitle consoles inputs).1
          = .error (.userVisibleRuntimeError
              ("VM with name '" ++ vmName ++ "' is unavailable")))
      ∧ (∀ i (hi : i < consoles.length), (consoles.get ⟨i, hi⟩).vm = vmName →
          (∀ j (hj : j < i), (consoles.get ⟨j, Nat.lt_trans hj hi⟩).vm ≠ vmName) →
          (doConnectSelect vmId vmName menuTitle consoles inputs).1
            = .ok (consoles.get ⟨i, hi⟩))) := by
  constructor
  · intro hid
    refine ⟨?_, ?_, ?_⟩
    · intro vmName2 inputs2
      simp [doConnectSelect, hid]
    · intro hnone
      have h0 : forFindFirst (fun e => e.vmid == vmId) consoles = none := by
        apply forFindFirst_eq_none
        intro e he
        simpa using hnone e he
      simp [doConnectSelect, hid, h0]
    · intro i hi hp hprev
      have h0 : forFindFirst (fun e => e.vmid == vmId) consoles
          = some (consoles.get ⟨i, hi⟩) := by
        apply forFindFirst_first hi
        · simpa using hp
        · intro j hj
          simpa using hprev j hj
      simp [doConnectSelect, hid, h0]
  · intro hid hname
    subst hid
    refine ⟨?_, ?_⟩
    · intro hnone
      have h0 : forFindFirst (fun e => e.vm == vmName) consoles = none := by
        apply forFindFirst_eq_none
        intro e he
        simpa using hnone e he
      simp [doConnectSelect, hname, h0]
    · intro i hi hp hprev
      have h0 : forFindFirst (fun e => e.vm == vmName) consoles
          = some (consoles.get ⟨i, hi⟩) := by
        apply forFindFirst_first hi
        · simpa using hp
        · intro j hj
          simpa using hprev j hj
      simp [doConnectSelect, hname, h0]

/-- C2 witness: with two consoles, `--vm-id vmid1` selects the second
entry, and an id matching nothing yields the unavailable error. -/
theorem claim_c2_witness :
    (doConnectSelect "vmid1" "" "" [c0, c1] []).1 = .ok c1
  ∧ (doConnectSelect "nope" "" "" [c0, c1] []).1
      = .error (.userVisibleRuntimeError "VM with id 'nope' is unavailable") := by
  constructor
  · exact ((claim_c2 "vmid1" "" "" [c0, c1] []).1 (by decide)).2.2 1 (by decide)
      (by decide)
      (fun j hj => by
        have h0 : j = 0 := by omega
        subst h0
        show c0.vmid ≠ "vmid1"
        decide)
  · exact ((claim_c2 "nope" "" "" [c0, c1] []).1 (by decide)).2.1 (by decide)

/-- C3: with no id/name criteria, an empty discovered console list fails
with the user-visible no-available-VMs error, and a singleton list is
selected automatically: the result is that entry for every possible
interactive input and nothing is prompted. -/
theorem claim_c3 (menuTitle : String) (consoles : List ConsoleEntry) :
    (consoles = [] → ∀ inputs, doConnectSelect "" "" menuTitle consoles inputs
        = (.error (.userVisibleRuntimeError "No available running VMs"), []))
  ∧ (∀ e, consoles = [e] → ∀ inputs,
      doConnectSelect "" "" menuTitle consoles inputs = (.ok e, [])) := by
  constructor
  · intro h inputs
    subst h
    rfl
  · intro e h inputs
    subst h
    rfl

/-- C3 witness: the two cases at concrete inputs. -/
theorem claim_c3_witness :
    doConnectSelect "" "" "T" [] ["0\n"]
      = (.error (.userVisibleRuntimeError "No available running VMs"), [])
  ∧ doConnectSelect "" "" "T" [c0] [] = (.ok c0, []) :=
  ⟨(claim_c3 "T" []).1 rfl ["0\n"], (claim_c3 "T" [c0]).2 c0 rfl []⟩

/-- C4: behaviour of the interactive selection loop `selectConsole` over
a non-empty console list, as a function of the line-oriented input
channel: (a) a line whose stripped text parses as an integer `i` with
`0 ≤ i < len(consoles)` returns `consoles[i]`; (b) any other line
(non-integer or out of range, other than the `exit` sentinel) emits the
`Invalid selection` message after the prompt, re-prompts, and the loop
continues on the remaining input; (c) the stripped line `exit` raises
`UserExit`, a cancellation signal whose class is distinct from the
user-visible error class; (d) end of input — an exhausted channel or the
empty string `readline` returns at EOF — raises the terminal
user-visible `EOF` failure; (e) the loop is bounded by nothing but these
outcomes: on every input channel it ends in a selection of a listed
entry, cancellation, or the EOF failure. -/
theorem claim_c4 (title : String) (consoles : List ConsoleEntry)
    (hne : consoles ≠ []) :
    (∀ l rest (i : Int), l ≠ "" → pyInt (rstripCRLF l) = some i →
      ∀ (hi : 0 ≤ i) (hlt : i.toNat < consoles.length),
      (selectConsole title consoles (l :: rest)).1
        = .ok (consoles.get ⟨i.toNat, hlt⟩))
  ∧ (∀ l rest, l ≠ "" → rstripCRLF l ≠ "exit" →
      (pyInt (rstripCRLF l) = none ∨
        ∀ i : Int, pyInt (rstripCRLF l) = some i →
          (i < 0 ∨ (consoles.length : Int) ≤ i)) →
      selectConsole title consoles (l :: rest)
        = ((selectConsole title consoles rest).1,
            .prompt (buildMenu title consoles) :: .invalidSelection
              :: (selectConsole title consoles rest).2))
  ∧ (∀ l rest, l ≠ "" → rstripCRLF l = "exit" →
      (selectConsole title consoles (l :: rest)).1 = .error .userExit)
  ∧ (∀ m, PyExc.userExit ≠ PyExc.userVisibleRuntimeError m)
  ∧ ((selectConsole title consoles []).1
      = .error (.userVisibleRuntimeError "EOF"))
  ∧ (∀ rest, (selectConsole title consoles ("" :: rest)).1
      = .error (.userVisibleRuntimeError "EOF"))
  ∧ (∀ inputs,
      (∃ e ∈ consoles, (selectConsole title consoles inputs).1 = .ok e)
      ∨ (selectConsole title consoles inputs).1 = .error .userExit
      ∨ (selectConsole title consoles inputs).1
          = .error (.userVisibleRuntimeError "EOF")) := by
  refine ⟨?_, ?_, ?_, ?_, ?_, ?_, ?_⟩
  · intro l rest i hl hp hi hlt
    have hex : rstripCRLF l ≠ "exit" := by
      intro he
      rw [he, show pyInt "exit" = none from rfl] at hp
      exact Option.noConfusion hp
    simp [selectConsole, selectConsoleLoop, hl, hex, hp, hi, hlt]
  · intro l rest hl hex hbad
    cases hv : pyInt (rstripCRLF l) with
    | none => simp [selectConsole, selectConsoleLoop, hl, hex, hv]
    | some i =>
      have hout : i < 0 ∨ (consoles.length : Int) ≤ i := by
        cases hbad with
        | inl h => rw [h] at hv; exact Option.noConfusion hv
        | inr h => exact h i hv
      have hneg : ¬ (0 ≤ i ∧ i.toNat < consoles.length) := by omega
      simp [selectConsole, selectConsoleLoop, hl, hex, hv, dif_neg hneg]
  · intro l rest hl hexit
    simp [selectConsole, selectConsoleLoop, hl, hexit]
  · intro m h
    exact PyExc.noConfusion h
  · rfl
  · intro rest
    rfl
  · intro inputs
    induction inputs with
    | nil =>
      right; right; rfl
    | cons l rest ih =>
      by_cases hl : l = ""
      · right; right
        simp [selectConsole, selectConsoleLoop, hl]
      · by_cases hexit : rstripCRLF l = "exit"
        · right; left
          simp [selectConsole, selectConsoleLoop, hl, hexit]
        · cases hv : pyInt (rstripCRLF l) with
          | none =>
            have hstep : (selectConsole title consoles (l :: rest)).1
                = (selectConsole title consoles rest).1 := by
              simp [selectConsole, selectConsoleLoop, hl, hexit, hv]
            rw [hstep]
            exact ih
          | some i =>
            by_cases hr : 0 ≤ i ∧ i.toNat < consoles.length
            · left
              refine ⟨consoles.get ⟨i.toNat, hr.2⟩, List.get_mem _ _ _, ?_⟩
              simp [selectConsole, selectConsoleLoop, hl, hexit, hv, hr.1, hr.2]
            · have hstep : (selectConsole title consoles (l :: rest)).1
                  = (selectConsole title consoles rest).1 := by
                simp [selectConsole, selectConsoleLoop, hl, hexit, hv, dif_neg hr]
              rw [hstep]
              exact ih

/-- C4 witness: with two consoles, the line `1` selects the second
entry; the out-of-range line `99` is rejected with the invalid-selection
message and the following `0` is accepted; `exit` cancels with
`UserExit`; an exhausted input channel fails with `EOF`. -/
theorem claim_c4_witness :
    (selectConsole "T" [c0, c1] ["1\n"]).1 = .ok c1
  ∧ selectConsole "T" [c0, c1] ["99\n", "0\n"]
      = (.ok c0, [.prompt (buildMenu "T" [c0, c1]), .invalidSelection,
          .prompt (buildMenu "T" [c0, c1])])
  ∧ (selectConsole "T" [c0, c1] ["exit\n"]).1 = .error .userExit
  ∧ (selectConsole "T" [c0, c1] []).1 = .error (.userVisibleRuntimeError "EOF") := by
  have h := claim_c4 "T" [c0, c1] (by simp)
  refine ⟨?_, ?_, ?_, h.2.2.2.2.1⟩
  · have ha := h.1 "1\n" [] 1 (by decide) (by decide) (by decide) (by decide)
    exact ha
  · have hb := h.2.1 "99\n" ["0\n"] (by decide) (by decide)
      (Or.inr (fun i hi => by
        have h99 : some (99 : Int) = some i := by
          rw [← hi]
          rfl
        have h99b : i = 99 := by
          injection h99 with h99c
          omega
        subst h99b
        right
        show ((2 : Nat) : Int) ≤ 99
        decide))
    rw [hb]
    rfl
  · exact h.2.2.1 "exit\n" [] (by decide) (by decide)

/-- C7: the materialized trust anchor is the single line
`@cert-authority <host>,<alias> <caPublicKey>` where the key is the CA
public key file content with its trailing newline(s) stripped, written
into a fresh private `mkstemp` file.  Under the schema's guarantees that
host and alias are clean tokens (no newline, comma-free and space-free
host, space-free alias) and the stripped key is a single line, the
content is that exact concatenation, consists of exactly one line, and
parsing the line back recovers the three fields. -/
theorem claim_c7 (host hostAlias cakeyRaw : String)
    (hh1 : '\n' ∉ host.data) (hh2 : ',' ∉ host.data) (hh3 : ' ' ∉ host.data)
    (ha1 : '\n' ∉ hostAlias.data) (ha2 : ' ' ∉ hostAlias.data)
    (hk1 : '\n' ∉ (rstripNl cakeyRaw).data) :
    knownHostsContent host hostAlias cakeyRaw
      = "@cert-authority " ++ host ++ "," ++ hostAlias ++ " " ++ rstripNl cakeyRaw
  ∧ lineCount (knownHostsContent host hostAlias cakeyRaw) = 1
  ∧ parseKnownHostsLine (knownHostsContent host hostAlias cakeyRaw)
      = some (host, hostAlias, rstripNl cakeyRaw) := by
  have hcomma : ("," : String).data = [','] := rfl
  have hspace : (" " : String).data = [' '] := rfl
  have hdata : (knownHostsContent host hostAlias cakeyRaw).data
      = "@cert-authority ".data
          ++ ((host.data ++ ',' :: hostAlias.data)
              ++ ' ' :: (rstripNl cakeyRaw).data) := by
    simp [knownHostsContent, String.data_append, hcomma, hspace, List.append_assoc]
  refine ⟨rfl, ?_, ?_⟩
  · have hm : ("@cert-authority ".data.count '\n') = 0 := by decide
    have hrest : '\n' ∉ ((host.data ++ ',' :: hostAlias.data)
        ++ ' ' :: (rstripNl cakeyRaw).data) := by
      intro hmem
      rcases List.mem_append.mp hmem with h1 | h2
      · rcases List.mem_append.mp h1 with h3 | h4
        · exact hh1 h3
        · rcases List.mem_cons.mp h4 with h5 | h6
          · exact absurd h5 (by decide)
          · exact ha1 h6
      · rcases List.mem_cons.mp h2 with h5 | h6
        · exact absurd h5 (by decide)
        · exact hk1 h6
    unfold lineCount
    rw [hdata, List.count_append, List.count_eq_zero.mpr hrest, hm]
  · have ht : ("@cert-authority ".data
        ++ ((host.data ++ ',' :: hostAlias.data)
            ++ ' ' :: (rstripNl cakeyRaw).data)).take 16
        = "@cert-authority ".data := by
      rw [show (16 : Nat) = ("@cert-authority ".data).length from rfl]
      exact List.take_left _ _
    have hd : ("@cert-authority ".data
        ++ ((host.data ++ ',' :: hostAlias.data)
            ++ ' ' :: (rstripNl cakeyRaw).data)).drop 16
        = (host.data ++ ',' :: hostAlias.data)
            ++ ' ' :: (rstripNl cakeyRaw).data := by
      rw [show (16 : Nat) = ("@cert-authority ".data).length from rfl]
      exact List.drop_left _ _
    have h1 : ∀ x ∈ host.data ++ ',' :: hostAlias.data, x ≠ ' ' := by
      intro x hx
      rcases List.mem_append.mp hx with hx1 | hx2
      · exact fun he => hh3 (he ▸ hx1)
      · rcases List.mem_cons.mp hx2 with hx3 | hx4
        · subst hx3
          decide
        · exact fun he => ha2 (he ▸ hx4)
    have h2 : ∀ x ∈ host.data, x ≠ ',' := fun x hx he => hh2 (he ▸ hx)
    have hs1 : splitFirst ' '
        ((host.data ++ ',' :: hostAlias.data) ++ ' ' :: (rstripNl cakeyRaw).data)
        = some (host.data ++ ',' :: hostAlias.data, (rstripNl cakeyRaw).data) :=
      splitFirst_append ' ' _ _ h1
    have hs2 : splitFirst ',' (host.data ++ ',' :: hostAlias.data)
        = some (host.data, hostAlias.data) :=
      splitFirst_append ',' _ _ h2
    unfold parseKnownHostsLine
    rw [hdata, if_pos ht, hd, hs1]
    simp [hs2]

/-- C7 witness: the anchor line for concrete fields, with line count 1
and the fields recovered by the reader. -/
theorem claim_c7_witness :
    lineCount (knownHostsContent "host7" "ovirt-vmconsole-host" "CAKEY\n") = 1
  ∧ parseKnownHostsLine (knownHostsContent "host7" "ovirt-vmconsole-host" "CAKEY\n")
      = some ("host7", "ovirt-vmconsole-host", "CAKEY") := by
  have h := claim_c7 "host7" "ovirt-vmconsole-host" "CAKEY\n"
    (by decide) (by decide) (by decide) (by decide) (by decide) (by decide)
  refine ⟨h.2.1, ?_⟩
  rw [h.2.2]
  rfl

/-- C6: the claim states that `executeJson` raises the malformed-output
error when the command's standard output is empty.  This counterexample
refutes it: on empty output `json.loads('')` raises
`json.JSONDecodeError` before the truthiness check is reached, a
different exception than `RuntimeError('... malformed output')` (both,
however, fail the session). -/
theorem claim_c6_counterexample :
    executeJson "Console list" 0 "" = .error .jsonDecodeError
  ∧ PyExc.jsonDecodeError ≠ .runtimeError "Console list malformed output" := by
  refine ⟨rfl, ?_⟩
  intro h
  exact PyExc.noConfusion h

/-- C6 (amended): `executeJson` raises the execution-failure error
exactly when the external command exits non-zero; with exit status 0,
output that does not parse as JSON — including empty output — raises a
JSON-decode error, and output that parses to a falsy value raises the
malformed-output error; a value is returned only on exit status 0 with
a truthy parse.  Every error `executeJson` raises is a non-user-visible
exception, so the proxy session fails with exit status 1 showing only
the generic internal-error message to the remote party. -/
theorem claim_c6_amended (what stdoutText : String) (rc : Int) :
    (rc ≠ 0 → executeJson what rc stdoutText
        = .error (.runtimeError (what ++ " execution failed rc=" ++ toString rc)))
  ∧ (jsonLoads stdoutText = none →
      executeJson what 0 stdoutText = .error .jsonDecodeError)
  ∧ (∀ v, jsonLoads stdoutText = some v → pyTruthy v = false →
      executeJson what 0 stdoutText
        = .error (.runtimeError (what ++ " malformed output")))
  ∧ (∀ v, executeJson what rc stdoutText = .ok v → rc = 0 ∧ pyTruthy v = true)
  ∧ (∀ e, executeJson what rc stdoutText = .error e →
      (proxyMainResult (.error e)).ret = 1
      ∧ (proxyMainResult (.error e)).stderrText = some "ERROR: Internal error\n") := by
  have h00 : ¬ ((0 : Int) ≠ 0) := by decide
  refine ⟨?_, ?_, ?_, ?_, ?_⟩
  · intro h
    unfold executeJson
    rw [if_pos h]
  · intro h
    unfold executeJson
    rw [if_neg h00, h]
  · intro v hv ht
    unfold executeJson
    rw [if_neg h00, hv]
    simp [ht]
  · intro v hok
    by_cases hrc : rc ≠ 0
    · unfold executeJson at hok
      rw [if_pos hrc] at hok
      exact Except.noConfusion hok
    · have hrc0 : rc = 0 := by omega
      subst hrc0
      unfold executeJson at hok
      rw [if_neg h00] at hok
      cases hj : jsonLoads stdoutText with
      | none =>
        rw [hj] at hok
        exact Except.noConfusion hok
      | some u =>
        rw [hj] at hok
        by_cases ht : pyTruthy u = true
        · simp only [ht, if_true] at hok
          have hu : u = v := by
            injection hok
          subst hu
          exact ⟨rfl, ht⟩
        · simp [ht] at hok
  · intro e herr
    by_cases hrc : rc ≠ 0
    · unfold executeJson at herr
      rw [if_pos hrc] at herr
      injection herr with h2
      subst h2
      exact ⟨rfl, rfl⟩
    · have hrc0 : rc = 0 := by omega
      subst hrc0
      unfold executeJson at herr
      rw [if_neg h00] at herr
      cases hj : jsonLoads stdoutText with
      | none =>
        rw [hj] at herr
        injection herr with h2
        subst h2
        exact ⟨rfl, rfl⟩
      | some u =>
        rw [hj] at herr
        by_cases ht : pyTruthy u = true
        · simp [ht] at herr
        · simp only [ht, if_false, Bool.false_eq_true] at herr
          injection herr with h2
          subst h2
          exact ⟨rfl, rfl⟩

/-- C6 witness: a non-zero exit status raises the execution-failure
error; non-JSON output under exit status 0 raises the decode error. -/
theorem claim_c6_amended_witness :
    executeJson "Console list" 1 "whatever"
      = .error (.runtimeError ("Console list execution failed rc=" ++ toString (1 : Int)))
  ∧ executeJson "Console list" 0 "not json" = .error .jsonDecodeError :=
  ⟨(claim_c6_amended "Console list" "whatever" 1).1 (by decide),
   (claim_c6_amended "Console list" "not json" 0).2.1 rfl⟩

/-- C10: when the external command's output parses as JSON, the only
structural check `executeJson` performs before returning is Python
truthiness of the parsed value: the value is returned iff it is truthy,
and every falsy parse — empty object, empty array, `null`, `false`,
`0`, empty string — raises the malformed-output error even though the
output is syntactically valid JSON. -/
theorem claim_c10 (what stdoutText : String) (v : PyVal)
    (hp : jsonLoads stdoutText = some v) :
    (executeJson what 0 stdoutText = .ok v ↔ pyTruthy v = true)
  ∧ (pyTruthy v = false →
      executeJson what 0 stdoutText
        = .error (.runtimeError (what ++ " malformed output"))) := by
  have h00 : ¬ ((0 : Int) ≠ 0) := by decide
  constructor
  · constructor
    · intro hok
      unfold executeJson at hok
      rw [if_neg h00, hp] at hok
      by_cases ht : pyTruthy v = true
      · exact ht
      · simp [ht] at hok
    · intro ht
      unfold executeJson
      rw [if_neg h00, hp]
      simp [ht]
  · intro ht
    unfold executeJson
    rw [if_neg h00, hp]
    simp [ht]

/-- C10 witness: the empty JSON array parses but is falsy, so the
malformed-output error is raised; the falsy values of each kind are
indeed falsy and a populated object is truthy. -/
theorem claim_c10_witness :
    executeJson "Console list" 0 "[]"
      = .error (.runtimeError "Console list malformed output")
  ∧ executeJson "Console list" 0 "null"
      = .error (.runtimeError "Console list malformed output")
  ∧ executeJson "Console list" 0 "0"
      = .error (.runtimeError "Console list malformed output")
  ∧ executeJson "Console list" 0 "false"
      = .error (.runtimeError "Console list malformed output") :=
  ⟨(claim_c10 "Console list" "[]" (.arr []) rfl).2 rfl,
   (claim_c10 "Console list" "null" .null rfl).2 rfl,
   (claim_c10 "Console list" "0" (.int 0) rfl).2 rfl,
   (claim_c10 "Console list" "false" (.bool false) rfl).2 rfl⟩

end OvirtVmconsole
